import Mathlib

/-!
Verification of the attendance-tracker repository.

The development shallowly embeds the parts of the code that the verified
properties talk about:

* the SQL schema (`classes`, `class_enrollment`, `attendance_sessions`,
  `attendance`), its CHECK constraints, the `enforce_same_block_enrollment`
  trigger and the `student_class_attendance` view (schema.sql);
* the teacher dashboard operations `startAttendance`, `endAttendance` and
  the `isButtonDisabled` time-window guard (teacher dashboard page);
* the student enrollment component (`EnrollClass.tsx`: `canEnrollInBlock`,
  the enroll-button guard and `handleEnroll`'s error-message mapping);
* the chatbot route handler (`app/api/attendance-chatbot/route.ts`);
* `TeacherProfile.tsx`'s `saveEdit`.

Tables are embedded as lists of records, SQL aggregation as list
operations, and the stateful client operations as explicit state-passing
functions.  Database effects that can fail are returned as explicit
outcome values.
-/

namespace Attendance

/-! ## Schema: classes, enrollment, and the same-block trigger -/

/-- A row of the `classes` table.  Only the columns that the verified
properties read are embedded: `id`, `block` (CHAR(1)) and `day_of_week`.
The remaining columns (`teacher_id`, `class_name`, `course_id`,
`year_level`, `start_time`, `end_time`, `created_at`) are not referenced
by the trigger, the CHECK constraints on `block`/`day_of_week`, or the
views. -/
structure ClassRow where
  id : String
  block : Char
  day_of_week : String
  deriving DecidableEq, Repr

/-- A row of the `class_enrollment` table (the generated `id` and
`enrolled_at` columns are not read by any verified property). -/
structure EnrollmentRow where
  student_id : String
  class_id : String
  deriving DecidableEq, Repr

/-- `SELECT block FROM classes WHERE id = cid` (the trigger's first
query).  `none` models the SQL NULL produced when no such class exists. -/
def lookupBlock (classes : List ClassRow) (cid : String) : Option Char :=
  (classes.find? (fun c => c.id == cid)).map (fun c => c.block)

/-- `SELECT ARRAY_AGG(DISTINCT c.block) FROM class_enrollment ce JOIN
classes c ON ce.class_id = c.id WHERE ce.student_id = sid` (the trigger's
second query).  The inner join drops enrollment rows whose class id does
not resolve; `ARRAY_AGG(DISTINCT …)` is modelled by `dedup`.  The empty
list models the NULL aggregate over zero rows. -/
def existingBlocks (classes : List ClassRow) (enr : List EnrollmentRow)
    (sid : String) : List Char :=
  (((enr.filter (fun e => e.student_id == sid)).filterMap
      (fun e => lookupBlock classes e.class_id)).dedup)

/-- The text produced by the trigger's
`RAISE EXCEPTION 'Student already enrolled in block %, cannot enroll in
block %', existing_blocks[1], new_block`. -/
def triggerMessage (existingBlock newBlock : Char) : String :=
  "Student already enrolled in block " ++ String.singleton existingBlock ++
    ", cannot enroll in block " ++ String.singleton newBlock

/-- Outcome of a `BEFORE INSERT` trigger invocation: either let the insert
proceed (`RETURN NEW`) or abort it with the raised message. -/
inductive TriggerResult where
  | proceed : TriggerResult
  | raise (msg : String) : TriggerResult
  deriving DecidableEq, Repr

/-- The `enforce_same_block_enrollment` trigger function.  Per SQL
three-valued logic the `IF` fires only when its condition is TRUE: when
`new_block` is NULL (class id not found) or `existing_blocks` is NULL
(no prior enrollments join to a class) the condition is not TRUE and the
insert proceeds. -/
def enforce_same_block_enrollment (classes : List ClassRow)
    (enr : List EnrollmentRow) (new : EnrollmentRow) : TriggerResult :=
  match lookupBlock classes new.class_id with
  | none => .proceed
  | some nb =>
      match existingBlocks classes enr new.student_id with
      | [] => .proceed
      | b1 :: rest =>
          if nb ∈ b1 :: rest then .proceed
          else .raise (triggerMessage b1 nb)

/-- Result of one `INSERT INTO class_enrollment` as evaluated by the
`trg_same_block_enrollment` BEFORE INSERT trigger: either the new table
with the row appended, or the raised exception together with the
unchanged table.  (The claims quantify over inserts as evaluated by the
trigger; the table's FK and UNIQUE constraints are separate Postgres
checks and are not part of the trigger.) -/
inductive InsertOutcome where
  | ok (table : List EnrollmentRow)
  | raised (msg : String) (table : List EnrollmentRow)
  deriving DecidableEq, Repr

/-- The `class_enrollment` table an insert attempt leaves behind. -/
def InsertOutcome.table : InsertOutcome → List EnrollmentRow
  | .ok t => t
  | .raised _ t => t

/-- One trigger-guarded insert into `class_enrollment`. -/
def insertEnrollment (classes : List ClassRow) (enr : List EnrollmentRow)
    (new : EnrollmentRow) : InsertOutcome :=
  match enforce_same_block_enrollment classes enr new with
  | .proceed => .ok (enr ++ [new])
  | .raise msg => .raised msg enr

/-- `class_enrollment` states reachable from the empty table by a sequence
of trigger-evaluated inserts (failed inserts leave the table unchanged). -/
inductive EnrollReachable (classes : List ClassRow) : List EnrollmentRow → Prop where
  | empty : EnrollReachable classes []
  | step (enr : List EnrollmentRow) (new : EnrollmentRow) :
      EnrollReachable classes enr →
      EnrollReachable classes (insertEnrollment classes enr new).table

/-- The same-block invariant: all classes a student is enrolled in have
the same block letter. -/
def sameBlockInv (classes : List ClassRow) (enr : List EnrollmentRow) : Prop :=
  ∀ (s : String), ∀ b1 ∈ existingBlocks classes enr s,
    ∀ b2 ∈ existingBlocks classes enr s, b1 = b2

/-! ## CHECK constraints on `classes` -/

/-- The schema constraint `CHECK (block IN ('A','B','C','D'))`. -/
def blockCheck (b : Char) : Bool :=
  b == 'A' || b == 'B' || b == 'C' || b == 'D'

/-- The schema constraint `CHECK (day_of_week IN ('Monday', …, 'Sunday'))`. -/
def dayCheck (d : String) : Bool :=
  ["Monday", "Tuesday", "Wednesday", "Thursday", "Friday", "Saturday",
    "Sunday"].contains d

/-- The conjunction of the embedded CHECK constraints of `classes`. -/
def classRowCheck (c : ClassRow) : Bool :=
  blockCheck c.block && dayCheck c.day_of_week

/-- `INSERT INTO classes`: succeeds only when the CHECK constraints hold
(`none` models the constraint-violation error). -/
def insertClassRow (tbl : List ClassRow) (c : ClassRow) : Option (List ClassRow) :=
  if classRowCheck c then some (tbl ++ [c]) else none

/-- `UPDATE classes SET block = b WHERE id = cid`: the updated rows must
still satisfy the CHECK constraint on `block`. -/
def updateClassBlock (tbl : List ClassRow) (cid : String) (b : Char) :
    Option (List ClassRow) :=
  if blockCheck b then
    some (tbl.map (fun c => if c.id == cid then { c with block := b } else c))
  else none

/-- `classes` states reachable from the empty table by checked inserts and
block updates. -/
inductive ClassesReachable : List ClassRow → Prop where
  | empty : ClassesReachable []
  | insert (tbl : List ClassRow) (c : ClassRow) (tbl2 : List ClassRow) :
      ClassesReachable tbl → insertClassRow tbl c = some tbl2 →
      ClassesReachable tbl2
  | update (tbl : List ClassRow) (cid : String) (b : Char) (tbl2 : List ClassRow) :
      ClassesReachable tbl → updateClassBlock tbl cid b = some tbl2 →
      ClassesReachable tbl2

/-! ## The `student_class_attendance` view -/

/-- A row of the `attendance` table as read by the views (`id`,
`student_id`, `class_id`, `status`). -/
structure AttRow where
  id : String
  student_id : String
  class_id : String
  status : String
  deriving DecidableEq, Repr

/-- A row of `attendance_sessions` as read by the view (`id`, `class_id`,
`session_date`). -/
structure SessRow where
  id : String
  class_id : String
  session_date : String
  deriving DecidableEq, Repr

/-- LEFT JOIN row source: the matching rows, or a single NULL row when
none match. -/
def leftOrNull (l : List α) : List (Option α) :=
  if l.isEmpty then [none] else l.map some

/-- Cartesian product of two row sources (the join of two independent
LEFT JOINs against the same grouped row). -/
def pairRows (l1 : List α) (l2 : List β) : List (α × β) :=
  (l1.map (fun a => l2.map (fun b => (a, b)))).flatten

/-- The attendance rows joined to the `(student, class)` group:
`LEFT JOIN attendance a ON a.student_id = s.id AND a.class_id = c.id`. -/
def attRowsFor (att : List AttRow) (sid cid : String) : List AttRow :=
  att.filter (fun a => a.student_id == sid && a.class_id == cid)

/-- The session rows joined to the class:
`LEFT JOIN attendance_sessions att ON att.class_id = c.id`. -/
def sessRowsFor (sess : List SessRow) (cid : String) : List SessRow :=
  sess.filter (fun t => t.class_id == cid)

/-- All join rows contributing to the view group of `(sid, cid)` (the
student is enrolled in the class, so the inner joins contribute exactly
this group). -/
def viewJoin (att : List AttRow) (sess : List SessRow) (sid cid : String) :
    List (Option AttRow × Option SessRow) :=
  pairRows (leftOrNull (attRowsFor att sid cid)) (leftOrNull (sessRowsFor sess cid))

/-- `COUNT(a.id) FILTER (WHERE a.status='Present')` of the view group. -/
def presentCount (att : List AttRow) (sess : List SessRow) (sid cid : String) : Nat :=
  ((viewJoin att sess sid cid).filter (fun p =>
    match p.1 with
    | some a => a.status == "Present"
    | none => false)).length

/-- `COUNT(a.id) FILTER (WHERE a.status='Absent')` of the view group. -/
def absentCount (att : List AttRow) (sess : List SessRow) (sid cid : String) : Nat :=
  ((viewJoin att sess sid cid).filter (fun p =>
    match p.1 with
    | some a => a.status == "Absent"
    | none => false)).length

/-- `COUNT(DISTINCT att.id)` of the view group. -/
def totalSessions (att : List AttRow) (sess : List SessRow) (sid cid : String) : Nat :=
  (((viewJoin att sess sid cid).filterMap (fun p => p.2.map (fun t => t.id))).dedup).length

/-! ## Chatbot route handler (`app/api/attendance-chatbot/route.ts`) -/

/-- The parsed JSON body of a chatbot request.  `none` models an absent
(or `null`) field. -/
structure ChatbotBody where
  teacherId : Option String
  studentId : Option String
  question : Option String
  deriving DecidableEq, Repr

/-- JavaScript truthiness of an optional string: `undefined`, `null` and
`""` are falsy. -/
def truthy : Option String → Bool
  | none => false
  | some s => s != ""

/-- A class row as selected by the route (`id, class_name, …`). -/
structure ClsInfo where
  id : String
  class_name : String
  deriving DecidableEq, Repr

/-- A session row as selected by the route (`id, session_date`). -/
structure SessInfo where
  id : String
  session_date : String
  deriving DecidableEq, Repr

/-- An attendance row as selected by the route (`status, student_id`). -/
structure RecInfo where
  student_id : String
  status : String
  deriving DecidableEq, Repr

/-- The environment the handler runs against: the hosted-database queries
and the AI completion call, each able to fail (`Except.error` models a
thrown/returned error; for the AI call `Except.ok none` models a null
`message.content`). -/
structure ChatbotEnv where
  classesFor : String → Except String (List ClsInfo)
  sessionsFor : String → List SessInfo
  recordsFor : String → List RecInfo
  aiResult : Except String (Option String)

/-- The three responses the handler can produce: HTTP 400 with `{error}`,
HTTP 200 with `{answer}`, HTTP 500 with `{error}`. -/
inductive ApiResponse where
  | badRequest (error : String)
  | ok (answer : String)
  | serverError (error : String)
  deriving DecidableEq, Repr

/-- Per-session summary built inside the route's loop:
`(session_date, totalStudents, present, absent)`. -/
def sessionSummary (env : ChatbotEnv) (s : SessInfo) : String × Nat × Nat × Nat :=
  let records := env.recordsFor s.id
  let present := (records.filter (fun r => r.status == "Present")).length
  let absent := (records.filter (fun r => r.status == "Absent")).length
  (s.session_date, present + absent, present, absent)

/-- The `attendanceData` object the route builds: classes with no
sessions are skipped (`continue`). -/
def attendanceDataFor (env : ChatbotEnv) (classes : List ClsInfo) :
    List (String × List (String × Nat × Nat × Nat)) :=
  classes.filterMap (fun cls =>
    let sessions := env.sessionsFor cls.id
    if sessions.isEmpty then none
    else some (cls.class_name, sessions.map (sessionSummary env)))

/-- The `POST` handler of `app/api/attendance-chatbot/route.ts`.  It
destructures only `teacherId` and `question` from the body and replies
400 when either is falsy; `studentId` is never read. -/
def chatbotPOST (env : ChatbotEnv) (body : ChatbotBody) : ApiResponse :=
  if !truthy body.teacherId || !truthy body.question then
    .badRequest "Missing teacherId or question"
  else
    match env.classesFor (body.teacherId.getD "") with
    | .error e => .serverError e
    | .ok classes =>
        if classes.isEmpty then .ok "No classes found for this teacher."
        else
          let _attendanceData := attendanceDataFor env classes
          match env.aiResult with
          | .error e => .serverError e
          | .ok content => .ok (content.getD "No response from AI")

/-! ## Teacher dashboard: sessions and end-of-session attendance -/

/-- A row of `attendance_sessions` as the dashboard reads and writes it. -/
structure SessionRec where
  id : String
  class_id : String
  session_date : String
  created_by : String
  status : String
  started_at : Option String
  ended_at : Option String
  deriving DecidableEq, Repr

/-- An `attendance` row as written by `endAttendance` (the upsert payload
columns). -/
structure AttendanceRec where
  student_id : String
  class_id : String
  session_id : String
  status : String
  deriving DecidableEq, Repr

/-- The two tables the dashboard operations touch. -/
structure Db where
  sessions : List SessionRec
  attendance : List AttendanceRec
  deriving DecidableEq, Repr

/-- A student row of the active class together with the client-side
`status` mark (`some "Present"` after `markPresent`, `none` otherwise). -/
structure StudentMark where
  id : String
  status : Option String
  deriving DecidableEq, Repr

/-- What `startAttendance` does besides the database write: alert that the
session already ended, resume the existing session, or start a new one. -/
inductive StartResult where
  | alreadyEnded : StartResult
  | resumed (sessionId : String) : StartResult
  | started (sessionId : String) : StartResult
  deriving DecidableEq, Repr

/-- The `maybeSingle` fetch of today's session for a class. -/
def findTodaySession (db : Db) (classId today : String) : Option SessionRec :=
  db.sessions.find? (fun s => s.class_id == classId && s.session_date == today)

/-- `startAttendance`: fetch today's session for the class; if it exists
and is `Ended`, alert and change nothing; if it exists otherwise, resume
it without touching the database; else insert a fresh `Ongoing` session
(`newId` stands for the generated `gen_random_uuid()`). -/
def startAttendance (db : Db) (classId today newId createdBy now : String) :
    Db × StartResult :=
  match findTodaySession db classId today with
  | some s =>
      if s.status == "Ended" then (db, .alreadyEnded)
      else (db, .resumed s.id)
  | none =>
      ({ db with sessions := db.sessions ++
          [⟨newId, classId, today, createdBy, "Ongoing", some now, none⟩] },
        .started newId)

/-- The conflict key of the upsert: `(student_id, class_id, session_id)`. -/
def attKey (a : AttendanceRec) : String × String × String :=
  (a.student_id, a.class_id, a.session_id)

/-- Upsert of a single payload row with
`onConflict: ["student_id", "class_id", "session_id"]`: update the
matching row's `status` if the key exists, insert otherwise. -/
def upsertOne (att : List AttendanceRec) (p : AttendanceRec) : List AttendanceRec :=
  if att.any (fun a => decide (attKey a = attKey p)) then
    att.map (fun a => if attKey a = attKey p then { a with status := p.status } else a)
  else att ++ [p]

/-- Upsert of the whole payload. -/
def upsertAttendance (att : List AttendanceRec) (payload : List AttendanceRec) :
    List AttendanceRec :=
  payload.foldl upsertOne att

/-- `s.status === "Present" ? "Present" : "Absent"`. -/
def markStatus (s : StudentMark) : String :=
  if s.status == some "Present" then "Present" else "Absent"

/-- The payload `endAttendance` builds from the class's student list. -/
def endPayload (classId sid : String) (students : List StudentMark) :
    List AttendanceRec :=
  students.map (fun s => ⟨s.id, classId, sid, markStatus s⟩)

/-- `endAttendance`: no-op without an active session id; otherwise upsert
one attendance row per enrolled student and then set the session's
`status` to `Ended` with an `ended_at` timestamp. -/
def endAttendance (db : Db) (classId : String) (activeSessionId : Option String)
    (students : List StudentMark) (now : String) : Db :=
  match activeSessionId with
  | none => db
  | some sid =>
      let att2 := upsertAttendance db.attendance (endPayload classId sid students)
      let sess2 := db.sessions.map (fun r =>
        if r.id == sid then { r with ended_at := some now, status := "Ended" } else r)
      ⟨sess2, att2⟩

/-- No two session rows share `(class_id, session_date)` (the schema's
`UNIQUE(class_id, session_date)`). -/
def sessionsUnique (l : List SessionRec) : Prop :=
  List.Pairwise (fun a b => ¬(a.class_id = b.class_id ∧ a.session_date = b.session_date)) l

/-- The session-table invariant the dashboard operations maintain:
`(class_id, session_date)` is unique, every status is `Ongoing` or
`Ended`, and primary keys are distinct. -/
def sessInv (l : List SessionRec) : Prop :=
  sessionsUnique l ∧ (∀ r ∈ l, r.status = "Ongoing" ∨ r.status = "Ended")
    ∧ (l.map (fun r => r.id)).Nodup

/-- Database states reachable from empty tables by the dashboard's
`startAttendance`/`endAttendance` operations.  The side condition on
`start` models `gen_random_uuid()`: the generated primary key is fresh. -/
inductive DashReachable : Db → Prop where
  | init : DashReachable ⟨[], []⟩
  | start (db : Db) (classId today newId createdBy now : String) :
      DashReachable db →
      (∀ r ∈ db.sessions, r.id ≠ newId) →
      DashReachable (startAttendance db classId today newId createdBy now).1
  | finish (db : Db) (classId : String) (activeSessionId : Option String)
      (students : List StudentMark) (now : String) :
      DashReachable db →
      DashReachable (endAttendance db classId activeSessionId students now)

/-! ## Student enrollment component (`EnrollClass.tsx`) -/

/-- An enrolled/listed class as the component sees it (`block` is a
string field of the fetched record). -/
structure EnrollClassRec where
  id : String
  block : String
  deriving DecidableEq, Repr

/-- `canEnrollInBlock`: with no enrollments every block is allowed,
otherwise only the block of the first enrolled class. -/
def canEnrollInBlock (enrolledClasses : List EnrollClassRec) (clsBlock : String) : Bool :=
  match enrolledClasses with
  | [] => true
  | e :: _ => e.block == clsBlock

/-- `enrolledClasses.some(e => e.id === cls.id)`. -/
def isEnrolled (enrolledClasses : List EnrollClassRec) (cls : EnrollClassRec) : Bool :=
  enrolledClasses.any (fun e => e.id == cls.id)

/-- The component's per-row `canEnroll` guard; the Enroll button is
rendered with `disabled={!canEnroll}`. -/
def canEnroll (enrolledClasses : List EnrollClassRec) (cls : EnrollClassRec) : Bool :=
  !isEnrolled enrolledClasses cls && canEnrollInBlock enrolledClasses cls.block

/-- `haystack` starts with `needle` (character lists). -/
def startsWithList : List Char → List Char → Bool
  | _, [] => true
  | [], _ :: _ => false
  | a :: l, b :: m => a == b && startsWithList l m

/-- Substring occurrence on character lists. -/
def containsSub : List Char → List Char → Bool
  | [], pat => pat.isEmpty
  | a :: t, pat => startsWithList (a :: t) pat || containsSub t pat

/-- JavaScript `String.prototype.includes`. -/
def jsIncludes (s pat : String) : Bool :=
  containsSub s.toList pat.toList

/-- The error message `handleEnroll` shows for a failed insert, keyed on
whether the thrown message contains the tested substring. -/
def handleEnrollErrorMessage (errMsg : String) : String :=
  if jsIncludes errMsg "already enrolled in a class in block" then
    "You cannot enroll in a class with a different block."
  else "Failed to enroll."

/-! ## Teacher profile `saveEdit` (`TeacherProfile.tsx`) -/

/-- The teacher row as stored in the `teachers` table (columns `saveEdit`
updates, plus the key). -/
structure TeacherRec where
  id : String
  first_name : String
  last_name : String
  email : String
  department_id : Option String
  deriving DecidableEq, Repr

/-- A toast banner. -/
inductive Toast where
  | success (message : String)
  | error (message : String)
  deriving DecidableEq, Repr

/-- The component state and the outcomes of the two network calls
`saveEdit` can make: `authResult` is `supabase.auth.updateUser` (error or
throw modelled as `Except.error`), `dbResult` is the `teachers` table
update. -/
structure SaveEditCtx where
  teacher : Option TeacherRec
  editFirstName : String
  editLastName : String
  editEmail : String
  editDepartmentId : Option String
  newPassword : String
  confirmPassword : String
  authResult : Except String Unit
  dbResult : Except String Unit

/-- What a `saveEdit` run did: whether the `teachers` table update was
attempted, the stored row afterwards, and the toast shown. -/
structure SaveEditResult where
  dbUpdateAttempted : Bool
  storedTeacher : TeacherRec
  toast : Option Toast
  deriving DecidableEq, Repr

/-- `/[A-Z]/.test password`. -/
def hasUpper (password : String) : Bool :=
  password.toList.any (fun c => 'A' ≤ c && c ≤ 'Z')

/-- `/[a-z]/.test password`. -/
def hasLower (password : String) : Bool :=
  password.toList.any (fun c => 'a' ≤ c && c ≤ 'z')

/-- `/[0-9]/.test password`. -/
def hasDigit (password : String) : Bool :=
  password.toList.any (fun c => '0' ≤ c && c ≤ '9')

/-- The special-character class of `validatePassword`. -/
def hasSpecial (password : String) : Bool :=
  password.toList.any (fun c => "!@#$%^&*(),.?\":\x7b\x7d|<>".toList.contains c)

/-- `validatePassword` (the `/.{8,}/` length test is embedded as
`length ≥ 8`; the stored passwords contain no newlines). -/
def validatePassword (password : String) : Bool :=
  decide (password.length ≥ 8) && hasUpper password && hasLower password &&
    hasDigit password && hasSpecial password

/-- `saveEdit`, as a function of the component state and the stored
`teachers` row.  Mirrors the original control flow: guard clauses for
validation, then the auth update (early return on failure), then the
table update. -/
def saveEdit (ctx : SaveEditCtx) (stored : TeacherRec) : SaveEditResult :=
  match ctx.teacher with
  | none => ⟨false, stored, none⟩
  | some teacher =>
      if ctx.editFirstName.trim = "" ∨ ctx.editLastName.trim = "" ∨
          ctx.editEmail.trim = "" then
        ⟨false, stored, some (.error "Please fill out all fields.")⟩
      else if (ctx.newPassword ≠ "" ∨ ctx.confirmPassword ≠ "") ∧
          ctx.newPassword ≠ ctx.confirmPassword then
        ⟨false, stored, some (.error "Passwords do not match.")⟩
      else if ctx.newPassword ≠ "" ∧ validatePassword ctx.newPassword = false then
        ⟨false, stored, some (.error
          "Password must be 8+ characters, with uppercase, lowercase, number, and special character.")⟩
      else
        match (if ctx.editEmail ≠ teacher.email ∨ ctx.newPassword ≠ ""
               then ctx.authResult else .ok ()) with
        | .error e => ⟨false, stored, some (.error e)⟩
        | .ok _ =>
            match ctx.dbResult with
            | .error _ => ⟨true, stored, some (.error "Failed to update teacher record.")⟩
            | .ok _ =>
                ⟨true,
                  { stored with
                    first_name := ctx.editFirstName.trim
                    last_name := ctx.editLastName.trim
                    email := ctx.editEmail.trim
                    department_id := ctx.editDepartmentId },
                  some (.success "Profile updated successfully.")⟩

/-! ## Teacher dashboard start-button time window -/

/-- The class record as the dashboard renders it. -/
structure DashClassRec where
  id : String
  day_of_week : String
  start_time : String
  end_time : String
  deriving DecidableEq, Repr

/-- JavaScript `toLowerCase` (the day-of-week values are ASCII). -/
def jsToLower (s : String) : String :=
  ⟨s.data.map Char.toLower⟩

/-- `split(":")` on the underlying character list. -/
def splitCharsOn (sep : Char) : List Char → List (List Char)
  | [] => [[]]
  | c :: rest =>
      let r := splitCharsOn sep rest
      if c = sep then [] :: r
      else
        match r with
        | [] => [[c]]
        | g :: gs => (c :: g) :: gs

/-- `Number` applied to a split component (the schema's TIME values are
numeric `HH:MM:SS` fields, so the components are decimal digits). -/
def parseNatChars (l : List Char) : Nat :=
  l.foldl (fun n c => n * 10 + (c.toNat - 48)) 0

/-- `time.split(":")` destructured into `[hour, minute]`. -/
def parseHM (t : String) : Nat × Nat :=
  match splitCharsOn ':' t.data with
  | h :: m :: _ => (parseNatChars h, parseNatChars m)
  | [h] => (parseNatChars h, 0)
  | [] => (0, 0)

/-- Milliseconds after local midnight of `setHours(hour, minute, 0, 0)`. -/
def msOfHM (hm : Nat × Nat) : Int :=
  ((hm.1 * 3600000 + hm.2 * 60000 : Nat) : Int)

/-- `isButtonDisabled`: disabled when the class already finished today,
when today's weekday differs (case-insensitively) from the class's day,
or when the current time is outside
`[start − 5 min, end]` (an end at or before the start rolls to the next
day).  `nowMs` is milliseconds after today's local midnight. -/
def isButtonDisabled (finishedClasses : List String) (todayDay : String)
    (nowMs : Int) (cls : DashClassRec) : Bool :=
  if finishedClasses.contains cls.id then true
  else if jsToLower cls.day_of_week ≠ jsToLower todayDay then true
  else
    let classStart := msOfHM (parseHM cls.start_time)
    let endRaw := msOfHM (parseHM cls.end_time)
    let classEnd := if endRaw ≤ classStart then endRaw + 86400000 else endRaw
    decide (nowMs < classStart - 300000) || decide (nowMs > classEnd)

/-- The Start Attendance button's `disabled={disabled || finished}`. -/
def startButtonDisabled (finishedClasses : List String) (todayDay : String)
    (nowMs : Int) (cls : DashClassRec) : Bool :=
  isButtonDisabled finishedClasses todayDay nowMs cls ||
    finishedClasses.contains cls.id

/-! ## Concrete data used by counterexamples and witnesses -/

/-- Two classes in different blocks plus a third sharing block A. -/
def demoClasses : List ClassRow :=
  [⟨"c1", 'A', "Monday"⟩, ⟨"c2", 'B', "Tuesday"⟩, ⟨"c3", 'A', "Wednesday"⟩]

/-- Student s1 enrolled in the block-A class c1. -/
def demoEnr : List EnrollmentRow :=
  [⟨"s1", "c1"⟩]

/-- One Present attendance row of s1 in c1. -/
def demoAtt : List AttRow :=
  [⟨"a1", "s1", "c1", "Present"⟩]

/-- Two sessions of class c1. -/
def demoSess : List SessRow :=
  [⟨"t1", "c1", "2025-01-06"⟩, ⟨"t2", "c1", "2025-01-13"⟩]

/-- An environment for the chatbot handler with no data and a canned AI
answer. -/
def demoChatbotEnv : ChatbotEnv :=
  ⟨fun _ => .ok [⟨"c1", "BSIT 2A"⟩], fun _ => [], fun _ => [], .ok (some "All present.")⟩

/-- The database after starting one session for class c1. -/
def demoDb : Db :=
  ⟨[⟨"t1", "c1", "2025-01-06", "T", "Ongoing", some "09:00", none⟩], []⟩

/-- Two enrolled students of c1, the first marked present. -/
def demoStudents : List StudentMark :=
  [⟨"s1", some "Present"⟩, ⟨"s2", none⟩]

/-- The database after also ending the session of `demoDb`. -/
def demoDb2 : Db :=
  ⟨[⟨"t1", "c1", "2025-01-06", "T", "Ended", some "09:00", some "2025-01-06T10"⟩],
    [⟨"s1", "c1", "t1", "Present"⟩, ⟨"s2", "c1", "t1", "Absent"⟩]⟩

/-! ## Theorems -/

/-- C8: in `EnrollClasses`, when the student has at least one enrolled
class the Enroll button is enabled exactly for not-yet-enrolled classes
whose block equals the block of the first enrolled class; with no
enrollments every listed class is enrollable. -/
theorem enroll_button_guard (enrolledClasses : List EnrollClassRec)
    (cls : EnrollClassRec) :
    (enrolledClasses = [] → canEnroll enrolledClasses cls = true)
    ∧ (∀ e0 rest, enrolledClasses = e0 :: rest →
        (canEnroll enrolledClasses cls = true ↔
          cls.block = e0.block ∧ isEnrolled enrolledClasses cls = false)) := by
  constructor
  · rintro rfl
    simp [canEnroll, canEnrollInBlock, isEnrolled]
  · rintro e0 rest rfl
    simp only [canEnroll, canEnrollInBlock, Bool.and_eq_true, Bool.not_eq_true',
      beq_iff_eq]
    constructor
    · rintro ⟨h1, h2⟩
      exact ⟨h2.symm, h1⟩
    · rintro ⟨h1, h2⟩
      exact ⟨h2, h1.symm⟩

/-- Witness for `enroll_button_guard` at concrete inputs. -/
theorem enroll_button_guard_witness :
    canEnroll [] ⟨"c1", "A"⟩ = true
    ∧ (canEnroll [⟨"c1", "A"⟩] ⟨"c2", "B"⟩ = true ↔
        ("B" : String) = "A" ∧ isEnrolled [⟨"c1", "A"⟩] ⟨"c2", "B"⟩ = false) :=
  ⟨(enroll_button_guard [] ⟨"c1", "A"⟩).1 rfl,
    (enroll_button_guard [⟨"c1", "A"⟩] ⟨"c2", "B"⟩).2 ⟨"c1", "A"⟩ [] rfl⟩

/-- C10: the Start Attendance button is enabled exactly when the class
has not finished today, today's weekday matches the class's day of week
case-insensitively, and the current time lies between five minutes before
the class start and the class end, an end at or before the start counting
as the following day. -/
theorem start_attendance_window (finishedClasses : List String) (todayDay : String)
    (nowMs : Int) (cls : DashClassRec) :
    startButtonDisabled finishedClasses todayDay nowMs cls = false ↔
      (cls.id ∉ finishedClasses ∧
        jsToLower cls.day_of_week = jsToLower todayDay ∧
        msOfHM (parseHM cls.start_time) - 300000 ≤ nowMs ∧
        nowMs ≤ (if msOfHM (parseHM cls.end_time) ≤ msOfHM (parseHM cls.start_time)
                 then msOfHM (parseHM cls.end_time) + 86400000
                 else msOfHM (parseHM cls.end_time))) := by
  unfold startButtonDisabled isButtonDisabled
  by_cases hf : cls.id ∈ finishedClasses
  · have hc : finishedClasses.contains cls.id = true := List.elem_iff.mpr hf
    simp [hc, hf]
  · have hc : finishedClasses.contains cls.id = false := by
      cases h : finishedClasses.contains cls.id
      · rfl
      · exact absurd (List.elem_iff.mp h) hf
    rw [hc]
    by_cases hd : jsToLower cls.day_of_week = jsToLower todayDay
    · have hd2 : ¬(jsToLower cls.day_of_week ≠ jsToLower todayDay) := fun h => h hd
      simp only [Bool.false_eq_true, if_false, if_neg hd2, Bool.or_false,
        Bool.or_eq_false_iff, decide_eq_false_iff_not, not_lt, gt_iff_lt,
        hd, eq_self_iff_true, true_and]
      simp [hf]
    · have hd2 : jsToLower cls.day_of_week ≠ jsToLower todayDay := hd
      simp [hd2, hd, hf]

set_option maxRecDepth 8192 in
/-- Witness for `start_attendance_window`: at 08:00 on a Monday the
button of a monday 08:00-09:30 class is enabled. -/
theorem start_attendance_window_witness :
    startButtonDisabled [] "Monday" 28800000
      ⟨"c1", "monday", "08:00:00", "09:30:00"⟩ = false := by
  refine (start_attendance_window [] "Monday" 28800000
    ⟨"c1", "monday", "08:00:00", "09:30:00"⟩).mpr ?_
  exact ⟨by simp, by decide, by decide, by decide⟩

/-- C9: `saveEdit` attempts the `teachers` table update only after a
needed auth update succeeded; when the auth update of email or password
fails, the stored teacher row is untouched. -/
theorem save_edit_auth_atomicity (ctx : SaveEditCtx) (stored t : TeacherRec)
    (ht : ctx.teacher = some t)
    (hneed : ctx.editEmail ≠ t.email ∨ ctx.newPassword ≠ "")
    (e : String) (ha : ctx.authResult = .error e) :
    (saveEdit ctx stored).dbUpdateAttempted = false
    ∧ (saveEdit ctx stored).storedTeacher = stored := by
  unfold saveEdit
  rw [ht]
  dsimp only
  rw [if_pos hneed, ha]
  split_ifs with h1 h2 h3 <;> exact ⟨rfl, rfl⟩

/-- Witness for `save_edit_auth_atomicity` at a concrete context. -/
theorem save_edit_auth_atomicity_witness :
    (let t : TeacherRec := ⟨"t1", "Joms", "Teacher", "old@mail.com", none⟩
     let ctx : SaveEditCtx :=
       ⟨some t, "Joms", "Teacher", "new@mail.com", none, "", "",
         .error "auth failed", .ok ()⟩
     (saveEdit ctx t).dbUpdateAttempted = false
     ∧ (saveEdit ctx t).storedTeacher = t) := by
  exact save_edit_auth_atomicity _ _ _ rfl (Or.inl (by decide)) "auth failed" rfl

/-- C4 counterexample: the route handler rejects a body carrying only
`studentId` and `question` with the 400 missing-field error, contrary to
the claim that such a body is accepted and answered. -/
theorem chatbot_studentId_only_rejected :
    chatbotPOST demoChatbotEnv
        ⟨none, some "27cf3d0d-77c2-4e70-998d-732a784263e3", some "Who is absent today?"⟩
      = .badRequest "Missing teacherId or question" := rfl

/-- C4 amended: a body whose `teacherId` and `question` are both truthy
is never answered with the 400 missing-field error: the handler returns a
200 `{answer}` or a 500 `{error}` on a downstream failure. -/
theorem chatbot_teacher_question_contract (env : ChatbotEnv) (body : ChatbotBody)
    (ht : truthy body.teacherId = true) (hq : truthy body.question = true) :
    (∃ a, chatbotPOST env body = .ok a)
    ∨ (∃ e2, chatbotPOST env body = .serverError e2) := by
  unfold chatbotPOST
  rw [ht, hq]
  simp only [Bool.not_true, Bool.or_self, Bool.false_eq_true, if_false]
  cases hc : env.classesFor (body.teacherId.getD "") with
  | error e => exact Or.inr ⟨e, rfl⟩
  | ok classes =>
      dsimp only
      by_cases hemp : classes.isEmpty
      · exact Or.inl ⟨_, by rw [if_pos hemp]⟩
      · rw [if_neg hemp]
        cases hai : env.aiResult with
        | error e => exact Or.inr ⟨e, rfl⟩
        | ok content => exact Or.inl ⟨_, rfl⟩

/-- Witness for `chatbot_teacher_question_contract` at a concrete body. -/
theorem chatbot_teacher_question_contract_witness :
    truthy (some "0f409208-bedb-4051-bc3f-2ac5e85b8a0d") = true
    ∧ truthy (some "Who is absent today?") = true
    ∧ ((∃ a, chatbotPOST demoChatbotEnv
          ⟨some "0f409208-bedb-4051-bc3f-2ac5e85b8a0d", none,
            some "Who is absent today?"⟩ = .ok a)
        ∨ (∃ e2, chatbotPOST demoChatbotEnv
          ⟨some "0f409208-bedb-4051-bc3f-2ac5e85b8a0d", none,
            some "Who is absent today?"⟩ = .serverError e2)) :=
  ⟨rfl, rfl, chatbot_teacher_question_contract demoChatbotEnv _ rfl rfl⟩

/-- C3: at a concrete rejected enrollment (student in block A attempting a
block-B class) the trigger raises the message
"Student already enrolled in block A, cannot enroll in block B", which
does not contain the substring `handleEnroll` tests for, so the student
is shown the generic "Failed to enroll." instead of the block-specific
explanation. -/
theorem enroll_error_pattern_mismatch :
    insertEnrollment demoClasses demoEnr ⟨"s1", "c2"⟩
        = .raised (triggerMessage 'A' 'B') demoEnr
    ∧ handleEnrollErrorMessage (triggerMessage 'A' 'B') = "Failed to enroll."
    ∧ ("Failed to enroll." : String)
        ≠ "You cannot enroll in a class with a different block." := by
  refine ⟨by decide, by decide, by decide⟩

/-- C7: every reachable `classes` table has only blocks A–D, and an
insert or block update with any other block value fails the CHECK
constraint. -/
theorem classes_block_domain (tbl : List ClassRow) (h : ClassesReachable tbl) :
    (∀ c ∈ tbl, c.block = 'A' ∨ c.block = 'B' ∨ c.block = 'C' ∨ c.block = 'D')
    ∧ (∀ c, blockCheck c.block = false → insertClassRow tbl c = none)
    ∧ (∀ cid b, blockCheck b = false → updateClassBlock tbl cid b = none) := by
  refine ⟨?_, ?_, ?_⟩
  · induction h with
    | empty => intro c hc; cases hc
    | insert tbl c tbl2 hr hins ih =>
        unfold insertClassRow at hins
        by_cases hchk : classRowCheck c
        · rw [if_pos hchk] at hins
          obtain rfl := Option.some.inj hins
          have hchk2 := hchk
          unfold classRowCheck at hchk2
          rw [Bool.and_eq_true] at hchk2
          intro x hx
          rcases List.mem_append.mp hx with hx | hx
          · exact ih x hx
          · have hxc : x = c := by simpa using hx
            subst hxc
            have hb := hchk2.1
            unfold blockCheck at hb
            simpa [or_assoc] using hb
        · rw [if_neg hchk] at hins
          cases hins
    | update tbl cid b tbl2 hr hupd ih =>
        unfold updateClassBlock at hupd
        by_cases hb : blockCheck b
        · rw [if_pos hb] at hupd
          obtain rfl := Option.some.inj hupd
          intro x hx
          obtain ⟨y, hy, rfl⟩ := List.mem_map.mp hx
          by_cases hid : y.id == cid
          · rw [if_pos hid]
            have hb2 := hb
            unfold blockCheck at hb2
            simpa [or_assoc] using hb2
          · rw [if_neg hid]
            exact ih y hy
        · rw [if_neg hb] at hupd
          cases hupd
  · intro c hc
    unfold insertClassRow classRowCheck
    rw [hc]
    simp
  · intro cid b hb
    unfold updateClassBlock
    rw [hb]
    simp

/-- Witness for `classes_block_domain` on a concrete reachable table. -/
theorem classes_block_domain_witness :
    ((⟨"c1", 'A', "Monday"⟩ : ClassRow).block = 'A' ∨
      (⟨"c1", 'A', "Monday"⟩ : ClassRow).block = 'B' ∨
      (⟨"c1", 'A', "Monday"⟩ : ClassRow).block = 'C' ∨
      (⟨"c1", 'A', "Monday"⟩ : ClassRow).block = 'D')
    ∧ insertClassRow [⟨"c1", 'A', "Monday"⟩] ⟨"c2", 'E', "Monday"⟩ = none
    ∧ updateClassBlock [⟨"c1", 'A', "Monday"⟩] "c1" 'Z' = none := by
  have hre : ClassesReachable [⟨"c1", 'A', "Monday"⟩] :=
    ClassesReachable.insert [] ⟨"c1", 'A', "Monday"⟩ _ .empty (by decide)
  have h := classes_block_domain [⟨"c1", 'A', "Monday"⟩] hre
  exact ⟨h.1 _ (by decide), h.2.1 ⟨"c2", 'E', "Monday"⟩ (by decide),
    h.2.2 "c1" 'Z' (by decide)⟩

/-- Membership in the trigger's aggregated block list. -/
theorem mem_existingBlocks {classes : List ClassRow} {enr : List EnrollmentRow}
    {s : String} {b : Char} :
    b ∈ existingBlocks classes enr s ↔
      ∃ e ∈ enr, e.student_id = s ∧ lookupBlock classes e.class_id = some b := by
  unfold existingBlocks
  simp [List.mem_dedup, List.mem_filterMap, List.mem_filter, and_assoc]

/-- A trigger invocation that proceeds on a class with a found block
either saw no prior blocks or saw the same block among them. -/
theorem proceed_block_mem {classes : List ClassRow} {enr : List EnrollmentRow}
    {new : EnrollmentRow} {b : Char}
    (hl : lookupBlock classes new.class_id = some b)
    (htr : enforce_same_block_enrollment classes enr new = .proceed) :
    existingBlocks classes enr new.student_id = [] ∨
      b ∈ existingBlocks classes enr new.student_id := by
  unfold enforce_same_block_enrollment at htr
  rw [hl] at htr
  dsimp only at htr
  cases hE : existingBlocks classes enr new.student_id with
  | nil => exact Or.inl rfl
  | cons b1 rest =>
      rw [hE] at htr
      dsimp only at htr
      by_cases hmem : b ∈ b1 :: rest
      · exact Or.inr (hE ▸ hmem)
      · rw [if_neg hmem] at htr
        cases htr

/-- One trigger-guarded insert preserves the same-block invariant. -/
theorem sameBlockInv_step (classes : List ClassRow) (enr : List EnrollmentRow)
    (new : EnrollmentRow) (hinv : sameBlockInv classes enr) :
    sameBlockInv classes (insertEnrollment classes enr new).table := by
  cases htr : enforce_same_block_enrollment classes enr new with
  | raise msg =>
      have htab : (insertEnrollment classes enr new).table = enr := by
        unfold insertEnrollment
        rw [htr]
        rfl
      rw [htab]
      exact hinv
  | proceed =>
      have htab : (insertEnrollment classes enr new).table = enr ++ [new] := by
        unfold insertEnrollment
        rw [htr]
        rfl
      rw [htab]
      intro s b1 hb1 b2 hb2
      rw [mem_existingBlocks] at hb1 hb2
      obtain ⟨e1, he1, hs1, hl1⟩ := hb1
      obtain ⟨e2, he2, hs2, hl2⟩ := hb2
      have hOf : ∀ e b, e ∈ enr → e.student_id = s →
          lookupBlock classes e.class_id = some b →
          b ∈ existingBlocks classes enr s :=
        fun e b he hs hl => mem_existingBlocks.mpr ⟨e, he, hs, hl⟩
      rcases List.mem_append.mp he1 with he1m | he1m <;>
        rcases List.mem_append.mp he2 with he2m | he2m
      · exact hinv s b1 (hOf e1 b1 he1m hs1 hl1) b2 (hOf e2 b2 he2m hs2 hl2)
      · have he2n : e2 = new := by simpa using he2m
        subst he2n
        have hb1m : b1 ∈ existingBlocks classes enr s := hOf e1 b1 he1m hs1 hl1
        rcases proceed_block_mem hl2 htr with hE | hE
        · rw [hs2] at hE
          rw [hE] at hb1m
          cases hb1m
        · rw [hs2] at hE
          exact hinv s b1 hb1m b2 hE
      · have he1n : e1 = new := by simpa using he1m
        subst he1n
        have hb2m : b2 ∈ existingBlocks classes enr s := hOf e2 b2 he2m hs2 hl2
        rcases proceed_block_mem hl1 htr with hE | hE
        · rw [hs1] at hE
          rw [hE] at hb2m
          cases hb2m
        · rw [hs1] at hE
          exact (hinv s b2 hb2m b1 hE).symm
      · have he1n : e1 = new := by simpa using he1m
        have he2n : e2 = new := by simpa using he2m
        subst he1n
        rw [he2n] at hl2
        rw [hl1] at hl2
        exact Option.some.inj hl2

/-- C1: over every sequence of trigger-evaluated inserts into
`class_enrollment`, all classes a student is enrolled in share one block;
an insert whose class has a block different from a block the student
already has raises and leaves the table unchanged; an insert whose
class's block matches, or for a student with no prior blocks, succeeds
and appends the row. -/
theorem same_block_enrollment_invariant (classes : List ClassRow)
    (enr : List EnrollmentRow) (h : EnrollReachable classes enr) :
    sameBlockInv classes enr
    ∧ (∀ new nb bOld, lookupBlock classes new.class_id = some nb →
        bOld ∈ existingBlocks classes enr new.student_id → nb ≠ bOld →
        ∃ msg, insertEnrollment classes enr new = .raised msg enr)
    ∧ (∀ new nb, lookupBlock classes new.class_id = some nb →
        (existingBlocks classes enr new.student_id = [] ∨
          nb ∈ existingBlocks classes enr new.student_id) →
        insertEnrollment classes enr new = .ok (enr ++ [new])) := by
  have hinv : sameBlockInv classes enr := by
    induction h with
    | empty =>
        intro s b1 hb1 b2 hb2
        rw [mem_existingBlocks] at hb1
        obtain ⟨e, he, -⟩ := hb1
        cases he
    | step enr new hr ih => exact sameBlockInv_step classes enr new ih
  refine ⟨hinv, ?_, ?_⟩
  · intro new nb bOld hl hbOld hne
    have hnotin : nb ∉ existingBlocks classes enr new.student_id := fun hin =>
      hne (hinv new.student_id nb hin bOld hbOld)
    cases htr : enforce_same_block_enrollment classes enr new with
    | proceed =>
        rcases proceed_block_mem hl htr with hE | hE
        · rw [hE] at hbOld
          cases hbOld
        · exact absurd hE hnotin
    | raise msg =>
        refine ⟨msg, ?_⟩
        unfold insertEnrollment
        rw [htr]
  · intro new nb hl hok
    have htr : enforce_same_block_enrollment classes enr new = .proceed := by
      unfold enforce_same_block_enrollment
      rw [hl]
      dsimp only
      cases hE : existingBlocks classes enr new.student_id with
      | nil => rfl
      | cons b1 rest =>
          rcases hok with hok | hok
          · rw [hok] at hE
            cases hE
          · rw [hE] at hok
            dsimp only
            rw [if_pos hok]
    unfold insertEnrollment
    rw [htr]

/-- Witness for `same_block_enrollment_invariant` on concrete reachable
data: the block-B insert is rejected, the block-A insert succeeds. -/
theorem same_block_enrollment_invariant_witness :
    (∃ msg, insertEnrollment demoClasses demoEnr ⟨"s1", "c2"⟩
        = .raised msg demoEnr)
    ∧ insertEnrollment demoClasses demoEnr ⟨"s1", "c3"⟩
        = .ok (demoEnr ++ [⟨"s1", "c3"⟩]) := by
  have hre : EnrollReachable demoClasses demoEnr := by
    have h1 := @EnrollReachable.step demoClasses [] ⟨"s1", "c1"⟩ EnrollReachable.empty
    have e1 : (insertEnrollment demoClasses [] ⟨"s1", "c1"⟩).table = demoEnr := by decide
    rwa [e1] at h1
  have h := same_block_enrollment_invariant demoClasses demoEnr hre
  exact ⟨h.2.1 ⟨"s1", "c2"⟩ 'B' 'A' (by decide) (by decide) (by decide),
    h.2.2 ⟨"s1", "c3"⟩ 'A' (by decide) (Or.inr (by decide))⟩

/-- `pairRows` over a cons expands to a map plus the tail product. -/
theorem pairRows_cons (a : α) (l1 : List α) (l2 : List β) :
    pairRows (a :: l1) l2 = l2.map (fun b => (a, b)) ++ pairRows l1 l2 := rfl

/-- Counting join rows by a predicate on the left column multiplies the
left count by the length of the right source. -/
theorem length_filter_pairRows_fst (l1 : List α) (l2 : List β) (q : α → Bool) :
    ((pairRows l1 l2).filter (fun p => q p.1)).length
      = (l1.filter q).length * l2.length := by
  induction l1 with
  | nil => simp [pairRows]
  | cons a t ih =>
      rw [pairRows_cons, List.filter_append, List.length_append, ih,
        List.filter_map]
      simp only [Function.comp_def]
      by_cases hqa : q a
      · rw [hqa, List.filter_true, List.length_map,
          List.filter_cons_of_pos hqa]
        simp [Nat.succ_mul, Nat.add_comm]
      · rw [Bool.not_eq_true] at hqa
        rw [hqa, List.filter_false, List.filter_cons_of_neg (by simp [hqa])]
        simp

/-- Filtering a NULL-padded LEFT JOIN source by a predicate that rejects
NULL counts exactly the underlying matching rows. -/
theorem length_filter_leftOrNull (l : List α) (q : Option α → Bool)
    (hq : q none = false) :
    ((leftOrNull l).filter q).length = (l.filter (fun a => q (some a))).length := by
  unfold leftOrNull
  by_cases h : l.isEmpty
  · obtain rfl := List.isEmpty_iff.mp h
    simp [hq]
  · rw [if_neg h, List.filter_map, List.length_map]
    simp [Function.comp_def]

/-- A NULL-padded LEFT JOIN source has `max 1 n` rows. -/
theorem length_leftOrNull (l : List α) : (leftOrNull l).length = max 1 l.length := by
  cases l with
  | nil => simp [leftOrNull]
  | cons a t =>
      simp only [leftOrNull, List.isEmpty_cons, Bool.false_eq_true, if_false,
        List.length_map, List.length_cons]
      omega

/-- A NULL-padded LEFT JOIN source is never empty. -/
theorem exists_mem_leftOrNull (l : List α) : ∃ o, o ∈ leftOrNull l := by
  cases l with
  | nil => exact ⟨none, by simp [leftOrNull]⟩
  | cons a t => exact ⟨some a, by simp [leftOrNull]⟩

/-- Non-NULL membership in a NULL-padded LEFT JOIN source. -/
theorem mem_leftOrNull_some {l : List α} {a : α} :
    some a ∈ leftOrNull l ↔ a ∈ l := by
  unfold leftOrNull
  by_cases h : l.isEmpty
  · obtain rfl := List.isEmpty_iff.mp h
    simp
  · rw [if_neg h]
    simp

/-- Membership in the join product. -/
theorem mem_pairRows {l1 : List α} {l2 : List β} {p : α × β} :
    p ∈ pairRows l1 l2 ↔ p.1 ∈ l1 ∧ p.2 ∈ l2 := by
  unfold pairRows
  simp only [List.mem_flatten, List.mem_map]
  constructor
  · rintro ⟨L, ⟨a, ha, rfl⟩, hpL⟩
    obtain ⟨b, hb, rfl⟩ := List.mem_map.mp hpL
    exact ⟨ha, hb⟩
  · rintro ⟨h1, h2⟩
    exact ⟨l2.map (fun b => (p.1, b)), ⟨p.1, h1, rfl⟩,
      List.mem_map.mpr ⟨p.2, h2, rfl⟩⟩

/-- C2 amended: for an enrolled `(student, class)` pair the view row has
`present_count` and `absent_count` equal to the matching Present/Absent
row counts multiplied by `max 1 (number of sessions of the class)` (the
two LEFT JOINs fan out), while `total_sessions` is the number of sessions
of the class. -/
theorem student_class_attendance_view_counts (att : List AttRow)
    (sess : List SessRow) (sid cid : String)
    (hids : ((sessRowsFor sess cid).map (fun t => t.id)).Nodup) :
    presentCount att sess sid cid
      = ((attRowsFor att sid cid).filter (fun a => a.status == "Present")).length
          * max 1 (sessRowsFor sess cid).length
    ∧ absentCount att sess sid cid
      = ((attRowsFor att sid cid).filter (fun a => a.status == "Absent")).length
          * max 1 (sessRowsFor sess cid).length
    ∧ totalSessions att sess sid cid = (sessRowsFor sess cid).length := by
  refine ⟨?_, ?_, ?_⟩
  · unfold presentCount viewJoin
    have h1 := length_filter_pairRows_fst (leftOrNull (attRowsFor att sid cid))
      (leftOrNull (sessRowsFor sess cid))
      (fun o : Option AttRow =>
        match o with
        | some a => a.status == "Present"
        | none => false)
    have h2 := length_filter_leftOrNull (attRowsFor att sid cid)
      (fun o : Option AttRow =>
        match o with
        | some a => a.status == "Present"
        | none => false) rfl
    rw [length_leftOrNull, h2] at h1
    exact h1
  · unfold absentCount viewJoin
    have h1 := length_filter_pairRows_fst (leftOrNull (attRowsFor att sid cid))
      (leftOrNull (sessRowsFor sess cid))
      (fun o : Option AttRow =>
        match o with
        | some a => a.status == "Absent"
        | none => false)
    have h2 := length_filter_leftOrNull (attRowsFor att sid cid)
      (fun o : Option AttRow =>
        match o with
        | some a => a.status == "Absent"
        | none => false) rfl
    rw [length_leftOrNull, h2] at h1
    exact h1
  · obtain ⟨o, ho⟩ := exists_mem_leftOrNull (attRowsFor att sid cid)
    have hmem : ∀ x,
        x ∈ (viewJoin att sess sid cid).filterMap (fun p => p.2.map (fun t => t.id)) ↔
          x ∈ (sessRowsFor sess cid).map (fun t => t.id) := by
      intro x
      constructor
      · intro hx
        obtain ⟨p, hp, hg⟩ := List.mem_filterMap.mp hx
        obtain ⟨t, hpt, htid⟩ := Option.map_eq_some'.mp hg
        have h2 := (mem_pairRows.mp hp).2
        rw [hpt] at h2
        exact List.mem_map.mpr ⟨t, mem_leftOrNull_some.mp h2, htid⟩
      · intro hx
        obtain ⟨t, ht, htid⟩ := List.mem_map.mp hx
        refine List.mem_filterMap.mpr ⟨(o, some t),
          mem_pairRows.mpr ⟨ho, mem_leftOrNull_some.mpr ht⟩, ?_⟩
        simpa using htid
    unfold totalSessions
    rw [← List.card_toFinset]
    have hsets : ((viewJoin att sess sid cid).filterMap
          (fun p => p.2.map (fun t => t.id))).toFinset
        = ((sessRowsFor sess cid).map (fun t => t.id)).toFinset := by
      ext x
      simp only [List.mem_toFinset]
      exact hmem x
    rw [hsets, List.card_toFinset, hids.dedup, List.length_map]

/-- Witness for `student_class_attendance_view_counts` on the concrete
tables of the counterexample. -/
theorem student_class_attendance_view_counts_witness :
    ((sessRowsFor demoSess "c1").map (fun t => t.id)).Nodup
    ∧ presentCount demoAtt demoSess "s1" "c1"
        = ((attRowsFor demoAtt "s1" "c1").filter
              (fun a => a.status == "Present")).length
            * max 1 (sessRowsFor demoSess "c1").length
    ∧ totalSessions demoAtt demoSess "s1" "c1"
        = (sessRowsFor demoSess "c1").length := by
  have h := student_class_attendance_view_counts demoAtt demoSess "s1" "c1" (by decide)
  exact ⟨by decide, h.1, h.2.2⟩

/-- C2 counterexample: with one Present attendance row and two sessions
for the class, the view reports `present_count = 2` although only one
Present row exists, so `present_count` is not the number of Present
rows. -/
theorem student_class_attendance_claim_cex :
    presentCount demoAtt demoSess "s1" "c1" = 2
    ∧ ((attRowsFor demoAtt "s1" "c1").filter (fun a => a.status == "Present")).length = 1
    ∧ presentCount demoAtt demoSess "s1" "c1"
        ≠ ((attRowsFor demoAtt "s1" "c1").filter (fun a => a.status == "Present")).length := by
  refine ⟨by decide, by decide, by decide⟩

/-- Updating a row's status keeps its conflict key. -/
theorem attKey_update (a p : AttendanceRec) :
    attKey { a with status := p.status } = attKey a := rfl

/-- A single upsert keeps attendance conflict keys distinct. -/
theorem upsertOne_nodupKeys (att : List AttendanceRec) (p : AttendanceRec)
    (h : (att.map attKey).Nodup) : ((upsertOne att p).map attKey).Nodup := by
  unfold upsertOne
  by_cases hany : att.any (fun a => decide (attKey a = attKey p))
  · rw [if_pos hany]
    have hmap : (att.map (fun a =>
          if attKey a = attKey p then { a with status := p.status } else a)).map attKey
        = att.map attKey := by
      rw [List.map_map]
      refine List.map_congr_left ?_
      intro a _
      by_cases hk : attKey a = attKey p
      · simp only [Function.comp_def, if_pos hk, attKey_update]
      · simp only [Function.comp_def, if_neg hk]
    rw [hmap]
    exact h
  · rw [if_neg hany, List.map_append, List.nodup_append]
    refine ⟨h, by simp, ?_⟩
    intro x hx hx2
    obtain ⟨a, ha, rfl⟩ := List.mem_map.mp hx
    have hxe : attKey a = attKey p := by simpa using hx2
    exact hany (List.any_eq_true.mpr ⟨a, ha, decide_eq_true hxe⟩)

/-- The update branch of the upsert leaves rows with a different key
alone. -/
theorem filter_key_map (t : List AttendanceRec) (p : AttendanceRec)
    (k : String × String × String) (hk : k ≠ attKey p) :
    (t.map (fun a =>
        if attKey a = attKey p then { a with status := p.status } else a)).filter
        (fun a => decide (attKey a = k))
      = t.filter (fun a => decide (attKey a = k)) := by
  induction t with
  | nil => rfl
  | cons a t ih =>
      simp only [List.map_cons, List.filter_cons]
      by_cases ha : attKey a = attKey p
      · rw [if_pos ha]
        have h1 : ¬(decide (attKey { a with status := p.status } = k) = true) := by
          simp only [attKey_update, decide_eq_true_eq]
          intro he
          exact hk (by rw [← he, ha])
        have h2 : ¬(decide (attKey a = k) = true) := by
          simp only [decide_eq_true_eq]
          intro he
          exact hk (by rw [← he, ha])
        rw [if_neg h1, if_neg h2]
        exact ih
      · rw [if_neg ha, ih]

/-- Upserting a row leaves the rows under any other key unchanged. -/
theorem upsertOne_filter_ne (att : List AttendanceRec) (p : AttendanceRec)
    (k : String × String × String) (hk : k ≠ attKey p) :
    (upsertOne att p).filter (fun a => decide (attKey a = k))
      = att.filter (fun a => decide (attKey a = k)) := by
  unfold upsertOne
  by_cases hany : att.any (fun a => decide (attKey a = attKey p))
  · rw [if_pos hany]
    exact filter_key_map att p k hk
  · rw [if_neg hany, List.filter_append]
    have h1 : [p].filter (fun a => decide (attKey a = k)) = [] := by
      have : attKey p ≠ k := fun he => hk he.symm
      simp [this]
    rw [h1, List.append_nil]

/-- The update branch of the upsert puts exactly the payload row under
the payload's key when it was present, nothing otherwise. -/
theorem filter_key_map_self (t : List AttendanceRec) (p : AttendanceRec)
    (h : (t.map attKey).Nodup) :
    (t.map (fun a =>
        if attKey a = attKey p then { a with status := p.status } else a)).filter
        (fun a => decide (attKey a = attKey p))
      = if attKey p ∈ t.map attKey then [p] else [] := by
  induction t with
  | nil => simp
  | cons a t ih =>
      obtain ⟨hna, hnd⟩ := List.nodup_cons.mp h
      simp only [List.map_cons, List.filter_cons]
      by_cases ha : attKey a = attKey p
      · rw [if_pos ha]
        have h1 : decide (attKey { a with status := p.status } = attKey p) = true := by
          rw [attKey_update]
          exact decide_eq_true ha
        rw [if_pos h1]
        have hap : ({ a with status := p.status } : AttendanceRec) = p := by
          cases a with
          | mk a1 a2 a3 a4 =>
              cases p with
              | mk p1 p2 p3 p4 =>
                  simp only [attKey, Prod.mk.injEq] at ha
                  simp [ha.1, ha.2.1, ha.2.2]
        have htail : (t.map (fun a =>
            if attKey a = attKey p then { a with status := p.status } else a)).filter
            (fun a => decide (attKey a = attKey p)) = [] := by
          rw [List.filter_eq_nil_iff]
          intro x hx
          obtain ⟨b, hb, rfl⟩ := List.mem_map.mp hx
          simp only [decide_eq_true_eq]
          intro hxe
          have hkb : attKey b = attKey p := by
            by_cases hbp : attKey b = attKey p
            · exact hbp
            · rw [if_neg hbp] at hxe
              exact absurd hxe hbp
          exact hna (by rw [ha, ← hkb]; exact List.mem_map_of_mem attKey hb)
        have hm : attKey p ∈ attKey a :: t.map attKey := by
          rw [← ha]
          exact List.mem_cons_self _ _
        rw [htail, hap, if_pos hm]
      · rw [if_neg ha]
        have h2 : ¬(decide (attKey a = attKey p) = true) := by
          simp only [decide_eq_true_eq]
          exact ha
        rw [if_neg h2, ih hnd]
        by_cases hm : attKey p ∈ t.map attKey
        · rw [if_pos hm, if_pos (List.mem_cons_of_mem _ hm)]
        · rw [if_neg hm, if_neg ?_]
          intro hc
          rcases List.mem_cons.mp hc with hc | hc
          · exact ha hc.symm
          · exact hm hc

/-- Upserting a row leaves exactly that row under its key. -/
theorem upsertOne_filter_self (att : List AttendanceRec) (p : AttendanceRec)
    (h : (att.map attKey).Nodup) :
    (upsertOne att p).filter (fun a => decide (attKey a = attKey p)) = [p] := by
  unfold upsertOne
  by_cases hany : att.any (fun a => decide (attKey a = attKey p))
  · rw [if_pos hany, filter_key_map_self att p h]
    obtain ⟨a, ha, hd⟩ := List.any_eq_true.mp hany
    have hmem : attKey p ∈ att.map attKey := by
      rw [← of_decide_eq_true hd]
      exact List.mem_map_of_mem attKey ha
    rw [if_pos hmem]
  · rw [if_neg hany, List.filter_append]
    have h1 : att.filter (fun a => decide (attKey a = attKey p)) = [] := by
      rw [List.filter_eq_nil_iff]
      intro x hx
      simp only [decide_eq_true_eq]
      intro he
      exact hany (List.any_eq_true.mpr ⟨x, hx, decide_eq_true he⟩)
    rw [h1]
    simp

/-- The full upsert keeps conflict keys distinct. -/
theorem upsertAttendance_nodupKeys (payload : List AttendanceRec) :
    ∀ att : List AttendanceRec, (att.map attKey).Nodup →
      ((upsertAttendance att payload).map attKey).Nodup := by
  induction payload with
  | nil => exact fun att h => h
  | cons q rest ih =>
      exact fun att h => ih (upsertOne att q) (upsertOne_nodupKeys att q h)

/-- The full upsert leaves rows under keys outside the payload
unchanged. -/
theorem upsertAttendance_filter_ne (payload : List AttendanceRec) :
    ∀ (att : List AttendanceRec) (k : String × String × String),
      (∀ p ∈ payload, k ≠ attKey p) →
      (upsertAttendance att payload).filter (fun a => decide (attKey a = k))
        = att.filter (fun a => decide (attKey a = k)) := by
  induction payload with
  | nil => exact fun att k _ => rfl
  | cons q rest ih =>
      intro att k hk
      have h1 := ih (upsertOne att q) k (fun p hp => hk p (List.mem_cons_of_mem _ hp))
      exact h1.trans (upsertOne_filter_ne att q k (hk q (List.mem_cons_self _ _)))

/-- After upserting a payload with distinct keys, each payload row is
exactly the table content under its key. -/
theorem upsertAttendance_filter_mem (payload : List AttendanceRec) :
    ∀ (att : List AttendanceRec) (p : AttendanceRec),
      (att.map attKey).Nodup → (payload.map attKey).Nodup → p ∈ payload →
      (upsertAttendance att payload).filter (fun a => decide (attKey a = attKey p))
        = [p] := by
  induction payload with
  | nil => intro att p _ _ hp; cases hp
  | cons q rest ih =>
      intro att p hatt hpay hp
      obtain ⟨hqn, hndr⟩ := List.nodup_cons.mp hpay
      rcases List.mem_cons.mp hp with rfl | hp2
      · have hne : ∀ x ∈ rest, attKey p ≠ attKey x := by
          intro x hx he
          exact hqn (by rw [he]; exact List.mem_map_of_mem attKey hx)
        have h1 := upsertAttendance_filter_ne rest (upsertOne att p) (attKey p) hne
        exact h1.trans (upsertOne_filter_self att p hatt)
      · exact ih (upsertOne att q) p (upsertOne_nodupKeys att q hatt) hndr hp2

/-- Distinct student ids give distinct payload keys. -/
theorem endPayload_nodupKeys (classId sid : String) (students : List StudentMark)
    (h : (students.map (fun s => s.id)).Nodup) :
    ((endPayload classId sid students).map attKey).Nodup := by
  unfold endPayload
  rw [List.map_map]
  have hcomp : (attKey ∘ fun s : StudentMark =>
        (⟨s.id, classId, sid, markStatus s⟩ : AttendanceRec))
      = (fun i => (i, classId, sid)) ∘ (fun s : StudentMark => s.id) := rfl
  rw [hcomp, ← List.map_map]
  refine List.Nodup.map ?_ h
  intro x y hxy
  simpa using hxy

/-- The session table `endAttendance` writes. -/
theorem endAttendance_sessions (db : Db) (classId sid : String)
    (students : List StudentMark) (now : String) :
    (endAttendance db classId (some sid) students now).sessions
      = db.sessions.map (fun r =>
          if r.id == sid then { r with ended_at := some now, status := "Ended" }
          else r) := rfl

/-- The attendance table `endAttendance` writes. -/
theorem endAttendance_attendance (db : Db) (classId sid : String)
    (students : List StudentMark) (now : String) :
    (endAttendance db classId (some sid) students now).attendance
      = upsertAttendance db.attendance (endPayload classId sid students) := rfl

/-- `startAttendance` preserves the session-table invariant. -/
theorem sessInv_start (db : Db) (classId today newId createdBy now : String)
    (hfresh : ∀ r ∈ db.sessions, r.id ≠ newId) (h : sessInv db.sessions) :
    sessInv (startAttendance db classId today newId createdBy now).1.sessions := by
  obtain ⟨hu, hs, hn⟩ := h
  unfold startAttendance
  cases hf : findTodaySession db classId today with
  | some s =>
      dsimp only
      by_cases he : s.status == "Ended"
      · rw [if_pos he]
        exact ⟨hu, hs, hn⟩
      · rw [if_neg he]
        exact ⟨hu, hs, hn⟩
  | none =>
      dsimp only
      refine ⟨?_, ?_, ?_⟩
      · refine List.pairwise_append.mpr ⟨hu, by simp, ?_⟩
        intro a ha b hb
        have hb2 : b = ⟨newId, classId, today, createdBy, "Ongoing", some now, none⟩ := by
          simpa using hb
        subst hb2
        rintro ⟨hc, hd⟩
        have hnone := List.find?_eq_none.mp hf a ha
        apply hnone
        simp [hc, hd]
      · intro r hr
        rcases List.mem_append.mp hr with hr | hr
        · exact hs r hr
        · have hr2 : r = ⟨newId, classId, today, createdBy, "Ongoing", some now, none⟩ := by
            simpa using hr
          subst hr2
          exact Or.inl rfl
      · rw [List.map_append, List.nodup_append]
        refine ⟨hn, by simp, ?_⟩
        intro x hx hx2
        obtain ⟨r, hr, rfl⟩ := List.mem_map.mp hx
        have hx3 : r.id = newId := by simpa using hx2
        exact hfresh r hr hx3

/-- `endAttendance` preserves the session-table invariant. -/
theorem sessInv_end (db : Db) (classId : String) (activeSid : Option String)
    (students : List StudentMark) (now : String) (h : sessInv db.sessions) :
    sessInv (endAttendance db classId activeSid students now).sessions := by
  obtain ⟨hu, hs, hn⟩ := h
  cases activeSid with
  | none => exact ⟨hu, hs, hn⟩
  | some sid =>
      rw [endAttendance_sessions]
      have hkey : ∀ r : SessionRec,
          ((if r.id == sid then { r with ended_at := some now, status := "Ended" }
            else r).class_id = r.class_id
          ∧ (if r.id == sid then { r with ended_at := some now, status := "Ended" }
            else r).session_date = r.session_date
          ∧ (if r.id == sid then { r with ended_at := some now, status := "Ended" }
            else r).id = r.id) := by
        intro r
        split <;> exact ⟨rfl, rfl, rfl⟩
      refine ⟨?_, ?_, ?_⟩
      · unfold sessionsUnique at hu ⊢
        rw [List.pairwise_map]
        refine hu.imp ?_
        intro a b hab hcon
        rw [(hkey a).1, (hkey b).1, (hkey a).2.1, (hkey b).2.1] at hcon
        exact hab hcon
      · intro r hr
        obtain ⟨r0, hr0, rfl⟩ := List.mem_map.mp hr
        by_cases h0 : r0.id == sid
        · rw [if_pos h0]
          exact Or.inr rfl
        · rw [if_neg h0]
          exact hs r0 hr0
      · rw [List.map_map]
        have hids : ((fun r : SessionRec => r.id) ∘ fun r =>
            if r.id == sid then { r with ended_at := some now, status := "Ended" }
            else r) = fun r : SessionRec => r.id := by
          funext r
          exact (hkey r).2.2
        rw [hids]
        exact hn

/-- Every reachable dashboard state satisfies the session-table
invariant. -/
theorem dashInv (db : Db) (h : DashReachable db) : sessInv db.sessions := by
  induction h with
  | init => exact ⟨List.Pairwise.nil, fun r hr => absurd hr (List.not_mem_nil r), List.nodup_nil⟩
  | start db classId today newId createdBy now hr hfresh ih =>
      exact sessInv_start db classId today newId createdBy now hfresh ih
  | finish db classId activeSid students now hr ih =>
      exact sessInv_end db classId activeSid students now ih

/-- C5: in every reachable dashboard state, sessions are unique per
`(class_id, session_date)` with status `Ongoing` or `Ended`;
`startAttendance` only ever appends (never modifies or recreates a
session) and is a complete no-op on a class whose session for the day is
already `Ended`; and `endAttendance` changes a session's status only from
`Ongoing` to `Ended`. -/
theorem session_lifecycle (db : Db) (h : DashReachable db) :
    sessionsUnique db.sessions
    ∧ (∀ r ∈ db.sessions, r.status = "Ongoing" ∨ r.status = "Ended")
    ∧ (∀ classId today newId createdBy now, ∃ added,
        (startAttendance db classId today newId createdBy now).1.sessions
          = db.sessions ++ added)
    ∧ (∀ classId today newId createdBy now s,
        findTodaySession db classId today = some s → s.status = "Ended" →
        startAttendance db classId today newId createdBy now = (db, .alreadyEnded))
    ∧ (∀ classId activeSid students now, ∀ r ∈ db.sessions,
        ∀ r2 ∈ (endAttendance db classId activeSid students now).sessions,
          r2.id = r.id →
          r2.status = r.status ∨ (r.status = "Ongoing" ∧ r2.status = "Ended")) := by
  obtain ⟨hu, hs, hn⟩ := dashInv db h
  refine ⟨hu, hs, ?_, ?_, ?_⟩
  · intro classId today newId createdBy now
    unfold startAttendance
    cases hf : findTodaySession db classId today with
    | some s =>
        dsimp only
        by_cases he : s.status == "Ended"
        · rw [if_pos he]
          exact ⟨[], by simp⟩
        · rw [if_neg he]
          exact ⟨[], by simp⟩
    | none =>
        dsimp only
        exact ⟨_, rfl⟩
  · intro classId today newId createdBy now s hf he
    unfold startAttendance
    rw [hf]
    dsimp only
    rw [if_pos (show (s.status == "Ended") = true by rw [he]; decide)]
  · intro classId activeSid students now r hr r2 hr2 hid
    cases activeSid with
    | none =>
        have hr2m : r2 ∈ db.sessions := hr2
        have heq : r2 = r := List.inj_on_of_nodup_map hn hr2m hr hid
        exact Or.inl (by rw [heq])
    | some sid =>
        rw [endAttendance_sessions] at hr2
        obtain ⟨r0, hr0, rfl⟩ := List.mem_map.mp hr2
        by_cases h0 : r0.id == sid
        · rw [if_pos h0] at hid ⊢
          have hid0 : r0.id = r.id := hid
          have heq : r0 = r := List.inj_on_of_nodup_map hn hr0 hr hid0
          subst heq
          rcases hs r0 hr0 with hOng | hEnd
          · exact Or.inr ⟨hOng, rfl⟩
          · exact Or.inl hEnd.symm
        · rw [if_neg h0] at hid ⊢
          have heq : r0 = r := List.inj_on_of_nodup_map hn hr0 hr hid
          exact Or.inl (by rw [heq])

/-- Witness for `session_lifecycle` on a concrete reachable state with an
ended session. -/
theorem session_lifecycle_witness :
    sessionsUnique demoDb2.sessions
    ∧ startAttendance demoDb2 "c1" "2025-01-06" "t9" "T2" "11:00"
        = (demoDb2, .alreadyEnded) := by
  have h0 : DashReachable (⟨[], []⟩ : Db) := .init
  have h1 := DashReachable.start ⟨[], []⟩ "c1" "2025-01-06" "t1" "T" "09:00" h0
    (by intro r hr; cases hr)
  have e1 : (startAttendance ⟨[], []⟩ "c1" "2025-01-06" "t1" "T" "09:00").1 = demoDb := by
    decide
  rw [e1] at h1
  have h2 := DashReachable.finish demoDb "c1" (some "t1") demoStudents "2025-01-06T10" h1
  have e2 : endAttendance demoDb "c1" (some "t1") demoStudents "2025-01-06T10" = demoDb2 := by
    decide
  rw [e2] at h2
  have h := session_lifecycle demoDb2 h2
  exact ⟨h.1, h.2.2.2.1 "c1" "2025-01-06" "t9" "T2" "11:00"
    ⟨"t1", "c1", "2025-01-06", "T", "Ended", some "09:00", some "2025-01-06T10"⟩
    (by decide) (by decide)⟩

/-- C6: ending an active session upserts exactly one attendance row per
enrolled student, `Present` exactly for the students marked present and
`Absent` for all others, and marks the session `Ended` with an `ended_at`
timestamp. -/
theorem end_attendance_postcondition (db : Db) (classId sid now : String)
    (students : List StudentMark)
    (hstu : (students.map (fun s => s.id)).Nodup)
    (hatt : (db.attendance.map attKey).Nodup) :
    (∀ s ∈ students,
        (endAttendance db classId (some sid) students now).attendance.filter
            (fun a => decide (attKey a = (s.id, classId, sid)))
          = [⟨s.id, classId, sid, markStatus s⟩])
    ∧ (∀ r ∈ (endAttendance db classId (some sid) students now).sessions,
        r.id = sid → r.status = "Ended" ∧ r.ended_at = some now) := by
  constructor
  · intro s hs
    rw [endAttendance_attendance]
    have hp : (⟨s.id, classId, sid, markStatus s⟩ : AttendanceRec)
        ∈ endPayload classId sid students := List.mem_map_of_mem _ hs
    exact upsertAttendance_filter_mem (endPayload classId sid students)
      db.attendance ⟨s.id, classId, sid, markStatus s⟩ hatt
      (endPayload_nodupKeys classId sid students hstu) hp
  · intro r hr hid
    rw [endAttendance_sessions] at hr
    obtain ⟨r0, hr0, rfl⟩ := List.mem_map.mp hr
    by_cases h0 : r0.id == sid
    · rw [if_pos h0]
      exact ⟨rfl, rfl⟩
    · rw [if_neg h0] at hid ⊢
      exact absurd (beq_iff_eq.mpr hid) h0

/-- Witness for `end_attendance_postcondition` on concrete data. -/
theorem end_attendance_postcondition_witness :
    (demoStudents.map (fun s => s.id)).Nodup
    ∧ (endAttendance demoDb "c1" (some "t1") demoStudents "2025-01-06T10").attendance.filter
        (fun a => decide (attKey a = ("s1", "c1", "t1")))
      = [⟨"s1", "c1", "t1", "Present"⟩]
    ∧ (endAttendance demoDb "c1" (some "t1") demoStudents "2025-01-06T10").attendance.filter
        (fun a => decide (attKey a = ("s2", "c1", "t1")))
      = [⟨"s2", "c1", "t1", "Absent"⟩] := by
  have h := end_attendance_postcondition demoDb "c1" "t1" "2025-01-06T10" demoStudents
    (by decide) (by decide)
  exact ⟨by decide, h.1 ⟨"s1", some "Present"⟩ (by decide),
    h.1 ⟨"s2", none⟩ (by decide)⟩

end Attendance
